import Mathlib

/-
Verification of the meme biosignal-acquisition core.

Shallow embedding of the two core source files:
  * src/muse_model.rs  (running statistics, suppression counters, orchestrator)
  * src/muse_packet.rs (OSC message decoder)

Modelling conventions:
  * Finite IEEE floats are idealized as elements of a linear ordered field
    (instantiated at ℚ for executable witnesses and at ℝ where the code
    computes exp / sqrt).  Non-finite floats (NaN and the infinities) are
    modelled explicitly by the FloatVal wrapper where the code tests
    is_finite.
  * Rust panics (expect / panic!) are modelled as Except.error carrying the
    panic message; a panic aborts the computation it occurs in.
  * The CSV / channel persistence streams are modelled as lists of the
    records sent to them (appended in send order); channel sends never fail
    in the model, matching the source's expect on a healthy channel.
-/

namespace Meme

/-! ## Constants (muse_model.rs) -/

def FOREHEAD_COUNTDOWN : Int := 5
def BLINK_COUNTDOWN : Int := 5
def CLENCH_COUNTDOWN : Int := 5
def HISTORY_LENGTH : Nat := 120
def TP9 : Fin 4 := 0
def AF7 : Fin 4 := 1
def AF8 : Fin 4 := 2
def TP10 : Fin 4 := 3
def WINDOW_LENGTH : Nat := 10

/-! ## Float arguments fed to NormalizedValue.set

The source gate is `val.is_finite() && val != current`.  Only the finiteness
test distinguishes float values from ideal field elements here, so a float
is modelled as either a finite field element or one of the non-finite
values. -/

inductive FloatVal (α : Type) where
  | finite (x : α)
  | nan
  | inf
  | ninf
deriving DecidableEq

def FloatVal.is_finite {α : Type} : FloatVal α → Bool
  | .finite _ => true
  | _ => false

/-! ## NormalizedValue (muse_model.rs lines 168-305)

One difference in representation: the source stores the standard deviation
field directly (`self.deviation = std_deviation(...)`, which ends in
`.sqrt()`).  To keep the state inside the field α we store the value before
the final square root (the variance); the deviation itself is exposed below
as the real square root of this field.  Nothing else reads the field, so
this is a transparent change of representation. -/

structure NormalizedValue (α : Type) where
  current : Option α
  min : Option α
  max : Option α
  mean : Option α
  variance : Option α
  history : List α
  moving_average_history : List α
deriving DecidableEq

variable {α : Type} [LinearOrderedField α]

def NormalizedValue.new : NormalizedValue α :=
  { current := none, min := none, max := none, mean := none,
    variance := none, history := [], moving_average_history := [] }

/-- muse_model.rs `sum`: running sum over a vector. -/
def sum (data : List α) : α := data.foldl (· + ·) 0

/-- muse_model.rs `mean`: sum / count when the list is nonempty. -/
def mean (data : List α) : Option α :=
  let count := data.length
  if 0 < count then some (sum data / (count : α)) else none

/-- muse_model.rs `std_deviation` without its final `.sqrt()`: the
population variance of the data around the supplied mean (squared
differences summed, divided by the count, not count - 1). -/
def std_deviation_sq (data : List α) (m : Option α) : Option α :=
  match m, data.length with
  | some data_mean, count =>
    if 0 < count then
      some (sum (data.map fun value => (data_mean - value) * (data_mean - value)) / (count : α))
    else none
  | none, _ => none

def NormalizedValue.moving_average (nv : NormalizedValue α) : Option α :=
  let count := nv.moving_average_history.length
  let s := sum nv.moving_average_history
  if 0 < count then some (s / (count : α)) else none

/-- The admission gate of `NormalizedValue::set`: the value must be finite
and, when a current value exists, different from it. -/
def acceptable_new_value (current : Option α) (val : FloatVal α) : Bool :=
  match current with
  | some current_value => val.is_finite && decide (val ≠ .finite current_value)
  | none => val.is_finite

/-- muse_model.rs `NormalizedValue::set` (lines 208-235).  On admission the
current value, min, max, bounded history, mean, deviation and the
moving-average window are all updated; otherwise the state is unchanged and
`false` is returned.  The non-finite cases are split out of the single
source `if` because only finite values pass the gate. -/
def NormalizedValue.set (nv : NormalizedValue α) (val : FloatVal α) :
    NormalizedValue α × Bool :=
  match val with
  | .finite v =>
    if acceptable_new_value nv.current (.finite v) then
      let new_max : Option α :=
        match nv.max with
        | none => some v
        | some m => if m < v then some v else some m
      let new_min : Option α :=
        match nv.min with
        | none => some v
        | some m => if v < m then some v else some m
      let history1 := nv.history ++ [v]
      let history2 := if HISTORY_LENGTH < history1.length then history1.drop 1 else history1
      let new_mean := Meme.mean history2
      let new_variance := std_deviation_sq history2 new_mean
      let mavg1 := nv.moving_average_history ++ [v]
      let mavg2 := if WINDOW_LENGTH ≤ mavg1.length then mavg1.drop 1 else mavg1
      ({ current := some v, min := new_min, max := new_max, mean := new_mean,
         variance := new_variance, history := history2,
         moving_average_history := mavg2 }, true)
    else (nv, false)
  | _ => (nv, false)

/-- The deviation the source stores: the square root of the variance field
(stated at ℚ, the executable instantiation). -/
noncomputable def NormalizedValue.deviationQ (nv : NormalizedValue ℚ) : Option ℝ :=
  nv.variance.map fun q => Real.sqrt (q : ℝ)

/-- The deviation the source stores, at the ℝ instantiation used inside the
orchestrator. -/
noncomputable def NormalizedValue.deviation (nv : NormalizedValue ℝ) : Option ℝ :=
  nv.variance.map Real.sqrt

/-- muse_model.rs `NormalizedValue::normalize`: (v - mean) / deviation when
mean and deviation are both defined. -/
noncomputable def NormalizedValue.normalize (nv : NormalizedValue ℝ) (val : Option ℝ) : Option ℝ :=
  match val with
  | some v =>
    match nv.mean, nv.deviation with
    | some m, some d => some ((v - m) / d)
    | _, _ => none
  | none => none

/-! Helper definitions for reasoning about sequences of admissions. -/

/-- Fold a whole list of finite values through `set`, keeping the state. -/
def admit_all (nv : NormalizedValue α) (l : List α) : NormalizedValue α :=
  l.foldl (fun s x => (s.set (.finite x)).1) nv

/-- Every value of the list is admitted when fed through `set` in order. -/
def admits_all (nv : NormalizedValue α) : List α → Bool
  | [] => true
  | x :: xs =>
    let p := nv.set (.finite x)
    p.2 && admits_all p.1 xs

/-- The evolution of the moving-average window on one admission. -/
def window_step (w : List α) (x : α) : List α :=
  if WINDOW_LENGTH ≤ (w ++ [x]).length then (w ++ [x]).drop 1 else w ++ [x]

/-- The last n elements of a list. -/
def lastN (n : Nat) (l : List α) : List α := l.drop (l.length - n)

/-! ## Domain events (muse_model.rs lines 67-100)

The display modes and the closed set of typed messages.  Timestamps are
modelled as integers; the network source address field carried alongside
each message is never read by the model and is omitted. -/

inductive DisplayType where
  | Mandala
  | Dowsiness
  | Emotion
  | EegValues

inductive MuseMessageType where
  | Eeg (eeg : Fin 4 → ℝ)
  | Accelerometer (x y z : ℝ)
  | Gyro (x y z : ℝ)
  | Alpha (alpha : Fin 4 → ℝ)
  | Beta (beta : Fin 4 → ℝ)
  | Gamma (gamma : Fin 4 → ℝ)
  | Delta (a b c d : ℝ)
  | Theta (a b c d : ℝ)
  | Batt (batt : Int)
  | Horseshoe (a b c d : ℝ)
  | TouchingForehead (touch : Bool)
  | Blink (blink : Bool)
  | JawClench (clench : Bool)

structure MuseMessage where
  message_time : Int
  muse_message_type : MuseMessageType

/-! ## Typed message decoder (muse_packet.rs)

Wire arguments are the two OSC argument variants the decoder reads.  Rust
panics (`expect`, `panic!`) are modelled as `Except.error` with the panic
message. -/

inductive OscType where
  | Int (i : Int)
  | Float (x : ℝ)

/-- An OSC message: address plus optional ordered argument list. -/
structure OscMessage where
  addr : String
  args : Option (List OscType)

/-- muse_packet.rs `get_float_from_args`: panics when the index is out of
range or the argument is not a Float. -/
def get_float_from_args (i : Nat) (args : List OscType) : Except String ℝ :=
  match args[i]? with
  | none => .error "Float was not provided"
  | some (OscType.Float value) => .ok value
  | some _ => .error "Muse value was not a float"

/-- muse_packet.rs `get_int_from_args`: panics when the index is out of
range or the argument is not an Int. -/
def get_int_from_args (i : Nat) (args : List OscType) : Except String Int :=
  match args[i]? with
  | none => .error "Int was not provided"
  | some (OscType.Int value) => .ok value
  | some _ => .error "Muse value was not an int"

/-- Truncation of a float toward zero, modelling Rust's `as i32` cast. -/
noncomputable def trunc_to_int (x : ℝ) : Int :=
  if x < 0 then ⌈x⌉ else ⌊x⌋

/-- The address dispatch of muse_packet.rs `parse_muse_message_type`
(identical in its two occurrences in the source): `ok none` is the logged
unknown-address case; `error` is a panic from a missing or mis-typed
argument. -/
noncomputable def decode_by_address (service : String) (args : List OscType) :
    Except String (Option MuseMessageType) :=
  match service with
  | "/muse/eeg" => do
    let x0 ← get_float_from_args 0 args
    let x1 ← get_float_from_args 0 args
    let x2 ← get_float_from_args 0 args
    let x3 ← get_float_from_args 0 args
    pure (some (.Eeg ![x0, x1, x2, x3]))
  | "/muse/acc" => do
    let x ← get_float_from_args 0 args
    let y ← get_float_from_args 1 args
    let z ← get_float_from_args 2 args
    pure (some (.Accelerometer x y z))
  | "/muse/gyro" => do
    let x ← get_float_from_args 0 args
    let y ← get_float_from_args 1 args
    let z ← get_float_from_args 2 args
    pure (some (.Gyro x y z))
  | "/muse/elements/touching_forehead" => do
    let t ← get_int_from_args 0 args
    pure (some (.TouchingForehead (t ≠ 0)))
  | "/muse/elements/horseshoe" => do
    let a ← get_float_from_args 0 args
    let b ← get_float_from_args 1 args
    let c ← get_float_from_args 2 args
    let d ← get_float_from_args 3 args
    pure (some (.Horseshoe a b c d))
  | "/muse/elements/alpha_absolute" => do
    let a ← get_float_from_args 0 args
    let b ← get_float_from_args 1 args
    let c ← get_float_from_args 2 args
    let d ← get_float_from_args 3 args
    pure (some (.Alpha ![a, b, c, d]))
  | "/muse/elements/beta_absolute" => do
    let a ← get_float_from_args 0 args
    let b ← get_float_from_args 1 args
    let c ← get_float_from_args 2 args
    let d ← get_float_from_args 3 args
    pure (some (.Beta ![a, b, c, d]))
  | "/muse/elements/gamma_absolute" => do
    let a ← get_float_from_args 0 args
    let b ← get_float_from_args 1 args
    let c ← get_float_from_args 2 args
    let d ← get_float_from_args 3 args
    pure (some (.Gamma ![a, b, c, d]))
  | "/muse/elements/delta_absolute" => do
    let a ← get_float_from_args 0 args
    let b ← get_float_from_args 1 args
    let c ← get_float_from_args 2 args
    let d ← get_float_from_args 3 args
    pure (some (.Delta a b c d))
  | "/muse/elements/theta_absolute" => do
    let a ← get_float_from_args 0 args
    let b ← get_float_from_args 1 args
    let c ← get_float_from_args 2 args
    let d ← get_float_from_args 3 args
    pure (some (.Theta a b c d))
  | "/muse/elements/blink" => do
    let blink ← get_int_from_args 0 args
    pure (some (.Blink (blink ≠ 0)))
  | "/muse/batt" => do
    let j1 ← get_int_from_args 1 args
    let j0 ← get_int_from_args 0 args
    pure (some (.Batt (trunc_to_int ((j1 : ℝ) / (j0 : ℝ)))))
  | "/muse/elements/jaw_clench" => do
    let clench ← get_int_from_args 0 args
    pure (some (.JawClench (clench ≠ 0)))
  | _ => pure none

/-- The thirteen addresses `parse_muse_message_type` recognizes. -/
def recognized_addresses : List String :=
  ["/muse/eeg", "/muse/acc", "/muse/gyro", "/muse/elements/touching_forehead",
   "/muse/elements/horseshoe", "/muse/elements/alpha_absolute",
   "/muse/elements/beta_absolute", "/muse/elements/gamma_absolute",
   "/muse/elements/delta_absolute", "/muse/elements/theta_absolute",
   "/muse/elements/blink", "/muse/batt", "/muse/elements/jaw_clench"]

/-- muse_packet.rs `parse_muse_message_type` (lines 31-242): unwraps the
argument list (panicking when absent), then evaluates the address dispatch
twice exactly as the source does — once whose result is only logged, and
once for the returned value; both evaluations panic identically. -/
noncomputable def parse_muse_message_type (raw_message : OscMessage) :
    Except String (Option MuseMessageType) :=
  match raw_message.args with
  | none => .error "Expected value was not sent by Muse"
  | some args => do
    let _ ← decode_by_address raw_message.addr args
    decode_by_address raw_message.addr args

/-- muse_packet.rs `parse_muse_packet` (lines 11-29): decodes every raw
message of a packet in order, keeping the successfully decoded ones and
skipping the `none` results; a panic inside one decode aborts the whole
batch.  The receive time stamped onto each message is a parameter (the
source reads the local clock). -/
noncomputable def parse_muse_packet (message_time : Int) :
    List OscMessage → Except String (List MuseMessage)
  | [] => .ok []
  | raw :: rest => do
    let decoded ← parse_muse_message_type raw
    let tail ← parse_muse_packet message_time rest
    match decoded with
    | some t => pure (⟨message_time, t⟩ :: tail)
    | none => pure tail

/-! ## Persistence streams (muse_model.rs)

Each stream is modelled as the list of records appended to it, in send
order.  The four channel-backed streams (eeg, alpha, beta, gamma) receive
whole messages; delta and theta rows are the written 4-channel snapshots;
the catch-all rows are the structured content of the formatted strings the
source writes (including the source's mislabelling of the
touching-forehead row as "Battery"). -/

inductive OtherRecord where
  | accelRow (x y z : ℝ)
  | gyroRow (x y z : ℝ)
  | horseshoeRow (a b c d : ℝ)
  | batteryRow (i : Int)
  | touchingRow (i : Int)
  | blinkRow (i : Int)
  | clenchRow (i : Int)

/-! ## MuseModel (muse_model.rs lines 544-899) -/

structure MuseModel where
  most_recent_message_receive_time : Int
  accelerometer : Fin 3 → ℝ
  gyro : Fin 3 → ℝ
  alpha : Fin 4 → ℝ
  beta : Fin 4 → ℝ
  gamma : Fin 4 → ℝ
  delta : Fin 4 → ℝ
  theta : Fin 4 → ℝ
  batt : Int
  horseshoe : Fin 4 → ℝ
  blink_countdown : Int
  touching_forehead_countdown : Int
  jaw_clench_countdown : Int
  scale : ℝ
  display_type : DisplayType
  arousal : NormalizedValue ℝ
  valence : NormalizedValue ℝ
  eeg_log : List MuseMessage
  alpha_log : List MuseMessage
  beta_log : List MuseMessage
  gamma_log : List MuseMessage
  delta_log : List (Int × (Fin 4 → ℝ))
  theta_log : List (Int × (Fin 4 → ℝ))
  other_log : List (Int × OtherRecord)

/-- muse_model.rs `MuseModel::new`: zeroed channel state, countdowns at 0,
empty statistics engines, freshly opened (empty) streams. -/
def MuseModel.new (start_time : Int) : MuseModel :=
  { most_recent_message_receive_time := start_time,
    accelerometer := ![0, 0, 0], gyro := ![0, 0, 0],
    alpha := ![0, 0, 0, 0], beta := ![0, 0, 0, 0], gamma := ![0, 0, 0, 0],
    delta := ![0, 0, 0, 0], theta := ![0, 0, 0, 0],
    batt := 0, horseshoe := ![0, 0, 0, 0],
    blink_countdown := 0, touching_forehead_countdown := 0,
    jaw_clench_countdown := 0, scale := 1.5,
    display_type := DisplayType.Mandala,
    arousal := NormalizedValue.new, valence := NormalizedValue.new,
    eeg_log := [], alpha_log := [], beta_log := [], gamma_log := [],
    delta_log := [], theta_log := [], other_log := [] }

/-- muse_model.rs `log_other`: one catch-all row per call, append order. -/
def MuseModel.log_other (m : MuseModel) (receive_time : Int) (other : OtherRecord) :
    MuseModel :=
  { m with other_log := m.other_log ++ [(receive_time, other)] }

def MuseModel.is_jaw_clench (m : MuseModel) : Bool := 0 < m.jaw_clench_countdown

def MuseModel.is_blink (m : MuseModel) : Bool := 0 < m.blink_countdown

def MuseModel.is_touching_forehead (m : MuseModel) : Bool :=
  0 < m.touching_forehead_countdown

/-- muse_model.rs `count_down` (lines 728-740): each of the three counters
is decremented when positive and left alone otherwise.  The source's three
sequential `if`s touch disjoint fields, so they are written as one record
update. -/
def MuseModel.count_down (m : MuseModel) : MuseModel :=
  { m with
    blink_countdown :=
      if 0 < m.blink_countdown then m.blink_countdown - 1 else m.blink_countdown,
    jaw_clench_countdown :=
      if 0 < m.jaw_clench_countdown then m.jaw_clench_countdown - 1
      else m.jaw_clench_countdown,
    touching_forehead_countdown :=
      if 0 < m.touching_forehead_countdown then m.touching_forehead_countdown - 1
      else m.touching_forehead_countdown }

/-- muse_model.rs `front_assymetry` (source spelling). -/
noncomputable def MuseModel.front_assymetry (m : MuseModel) : ℝ :=
  Real.exp (m.alpha AF8 - m.alpha AF7)

/-- muse_model.rs `average_from_front_electrodes`: mean of e^x over the two
frontal electrodes (indices 1 and 2 hard-coded in the source). -/
noncomputable def average_from_front_electrodes (x : Fin 4 → ℝ) : ℝ :=
  (Real.exp (x 1) + Real.exp (x 2)) / 2

/-- muse_model.rs `calc_absolute_valence`. -/
noncomputable def MuseModel.calc_absolute_valence (m : MuseModel) : ℝ :=
  m.front_assymetry / average_from_front_electrodes m.theta

/-- muse_model.rs `calc_abolute_arousal` (source spelling). -/
noncomputable def MuseModel.calc_abolute_arousal (m : MuseModel) : ℝ :=
  let frontal_apha := (Real.exp (m.alpha AF7) + Real.exp (m.alpha AF8)) / 2
  let frontal_theta := (Real.exp (m.theta AF7) + Real.exp (m.theta AF8)) / 2
  frontal_theta / (frontal_apha + 1e-6)

/-- muse_model.rs `update_arousal`. -/
noncomputable def MuseModel.update_arousal (m : MuseModel) : MuseModel × Bool :=
  let p := m.arousal.set (.finite m.calc_abolute_arousal)
  ({ m with arousal := p.1 }, p.2)

/-- muse_model.rs `update_valence`. -/
noncomputable def MuseModel.update_valence (m : MuseModel) : MuseModel × Bool :=
  let p := m.valence.set (.finite m.calc_absolute_valence)
  ({ m with valence := p.1 }, p.2)

/-- muse_model.rs `handle_muse_message` (lines 799-898): updates channel
state, re-arms the suppression counters, and forwards the event to its
persistence stream; returns whether new band-power data arrived.  Channel
sends are modelled as appends that never fail. -/
def MuseModel.handle_muse_message (m : MuseModel) (muse_message : MuseMessage) :
    MuseModel × Bool :=
  let message_time := muse_message.message_time
  match muse_message.muse_message_type with
  | .Accelerometer x y z =>
    (({ m with accelerometer := ![x, y, z] }).log_other message_time
       (.accelRow x y z), false)
  | .Gyro x y z =>
    (({ m with gyro := ![x, y, z] }).log_other message_time (.gyroRow x y z), false)
  | .Horseshoe a b c d =>
    (({ m with horseshoe := ![a, b, c, d] }).log_other message_time
       (.horseshoeRow a b c d), false)
  | .Eeg _ =>
    ({ m with eeg_log := m.eeg_log ++ [muse_message] }, false)
  | .Alpha alpha =>
    ({ m with alpha := alpha, alpha_log := m.alpha_log ++ [muse_message] }, true)
  | .Beta beta =>
    ({ m with beta := beta, beta_log := m.beta_log ++ [muse_message] }, true)
  | .Gamma gamma =>
    ({ m with gamma := gamma, gamma_log := m.gamma_log ++ [muse_message] }, true)
  | .Delta a b c d =>
    let m1 := { m with delta := ![a, b, c, d] }
    ({ m1 with delta_log := m1.delta_log ++ [(message_time, m1.delta)] }, true)
  | .Theta a b c d =>
    let m1 := { m with theta := ![a, b, c, d] }
    ({ m1 with theta_log := m1.theta_log ++ [(message_time, m1.theta)] }, true)
  | .Batt batt =>
    (({ m with batt := batt }).log_other message_time (.batteryRow batt), false)
  | .TouchingForehead touch =>
    if touch then (m.log_other message_time (.touchingRow 1), false)
    else
      (({ m with touching_forehead_countdown := FOREHEAD_COUNTDOWN }).log_other
         message_time (.touchingRow 0), false)
  | .Blink blink =>
    if blink then
      (({ m with blink_countdown := BLINK_COUNTDOWN }).log_other message_time
         (.blinkRow 1), false)
    else (m.log_other message_time (.blinkRow 0), false)
  | .JawClench clench =>
    if clench then
      (({ m with jaw_clench_countdown := CLENCH_COUNTDOWN }).log_other message_time
         (.clenchRow 1), false)
    else (m.log_other message_time (.clenchRow 0), false)

/-- muse_model.rs `receive_packets` (lines 742-767).  The pending messages
drained from the external connection are the list parameter.  The loop
mirrors the source statement
`updated_numeric_values = updated_numeric_values || handle_muse_message(..)`:
Rust's `||` short-circuits, so once the flag is true the handler call is
skipped and only the receive-time field is written. -/
noncomputable def MuseModel.receive_packets (m : MuseModel)
    (muse_messages : List MuseMessage) : MuseModel × (Option ℝ × Option ℝ) :=
  let step := fun (s : MuseModel × Bool) (muse_message : MuseMessage) =>
    let m1 := { s.1 with
      most_recent_message_receive_time := muse_message.message_time }
    if s.2 then (m1, true)
    else m1.handle_muse_message muse_message
  let after_loop := muse_messages.foldl step (m, false)
  if after_loop.2 then
    let v := after_loop.1.update_valence
    let a := v.1.update_arousal
    let vma := a.1.valence.moving_average
    let ama := a.1.arousal.moving_average
    (a.1, (a.1.valence.normalize vma, a.1.arousal.normalize ama))
  else (after_loop.1, (none, none))

/-- main.rs `bound_normalized_value` (lines 325-327):
`normalized.max(3.0).min(-3.0)`, kept exactly as written. -/
def bound_normalized_value (normalized : ℝ) : ℝ :=
  Min.min (Max.max normalized 3.0) (-3.0)

/-! ## Theorems -/

/-- C9: `bound_normalized_value` computes `normalized.max(3.0).min(-3.0)`,
an inverted clamp; for every (non-NaN, modelled as real) input it returns
-3.0. -/
theorem bound_normalized_value_constant (normalized : ℝ) :
    bound_normalized_value normalized = -3.0 := by
  unfold bound_normalized_value
  have h : (-3.0 : ℝ) ≤ Max.max normalized 3.0 :=
    le_trans (by norm_num) (le_max_right normalized 3.0)
  exact min_eq_right h

/-- C8: for every channel state, the computed absolute valence equals
exp(alpha[AF8] − alpha[AF7]) / ((exp(theta[AF7]) + exp(theta[AF8])) / 2),
with AF7 and AF8 the fixed array indices 1 and 2. -/
theorem calc_absolute_valence_formula (m : MuseModel) :
    m.calc_absolute_valence =
      Real.exp (m.alpha 2 - m.alpha 1) /
        ((Real.exp (m.theta 1) + Real.exp (m.theta 2)) / 2) ∧
      AF7 = 1 ∧ AF8 = 2 :=
  ⟨rfl, rfl, rfl⟩

/-- C10: `is_touching_forehead` is true iff the forehead countdown is
positive; a TouchingForehead event with `touch = false` arms the countdown
to its reset constant while `touch = true` leaves it unchanged, so the flag
is true exactly during the countdown window following a not-touching
report. -/
theorem touching_forehead_window (m : MuseModel) (t : Int) :
    (m.is_touching_forehead = true ↔ 0 < m.touching_forehead_countdown)
    ∧ (m.handle_muse_message ⟨t, .TouchingForehead false⟩).1.touching_forehead_countdown
        = FOREHEAD_COUNTDOWN
    ∧ (m.handle_muse_message ⟨t, .TouchingForehead true⟩).1.touching_forehead_countdown
        = m.touching_forehead_countdown := by
  refine ⟨?_, rfl, rfl⟩
  simp [MuseModel.is_touching_forehead]

/-- C4 (counterexample): decoding "/muse/eeg" with the four distinct Float
arguments 1, 2, 3, 4 yields the sample [1, 1, 1, 1], not [1, 2, 3, 4]: the
source reads argument index 0 four times. -/
theorem eeg_decode_counterexample :
    parse_muse_message_type
        ⟨"/muse/eeg", some [.Float 1, .Float 2, .Float 3, .Float 4]⟩
      = .ok (some (.Eeg ![1, 1, 1, 1]))
    ∧ parse_muse_message_type
        ⟨"/muse/eeg", some [.Float 1, .Float 2, .Float 3, .Float 4]⟩
      ≠ .ok (some (.Eeg ![1, 2, 3, 4])) := by
  have h1 : parse_muse_message_type
      ⟨"/muse/eeg", some [.Float 1, .Float 2, .Float 3, .Float 4]⟩
      = .ok (some (.Eeg ![1, 1, 1, 1])) := rfl
  refine ⟨h1, fun h => ?_⟩
  rw [h1] at h
  simp only [Except.ok.injEq, Option.some.injEq, MuseMessageType.Eeg.injEq] at h
  have h2 := congrFun h 1
  simp only [Matrix.cons_val_one, Matrix.head_cons] at h2
  norm_num at h2

/-- C4 (amended): decoding a "/muse/eeg" message reads the Float argument
at index 0 four times, so the 4-channel EEG sample event carries the first
argument in all four channels. -/
theorem eeg_decode_reads_index_zero (a b c d : ℝ) :
    parse_muse_message_type
        ⟨"/muse/eeg", some [.Float a, .Float b, .Float c, .Float d]⟩
      = .ok (some (.Eeg ![a, a, a, a])) := rfl

/-- C2 (counterexample): a recognized address ("/muse/acc") with a missing
argument does not decode gracefully: `parse_muse_message_type` panics
(modelled as `Except.error` with the panic message), aborting rather than
skipping the single message. -/
theorem parse_missing_arg_panics :
    parse_muse_message_type ⟨"/muse/acc", some []⟩
      = .error "Float was not provided" := rfl

theorem decode_unknown_address (addr : String) (args : List OscType)
    (h : addr ∉ recognized_addresses) :
    decode_by_address addr args = .ok none := by
  unfold decode_by_address
  split <;> first | rfl | simp_all [recognized_addresses]

/-- C2 (amended): a missing or mis-typed argument for a recognized address
panics, aborting the whole batch; only an unknown address is reported and
skipped, with the caller continuing to process the remaining messages. -/
theorem decode_failure_behaviour :
    (∀ (addr : String) (args : List OscType), addr ∉ recognized_addresses →
      parse_muse_message_type ⟨addr, some args⟩ = .ok none)
    ∧ (∀ (t : Int) (rest : List OscMessage),
        parse_muse_packet t (⟨"/muse/acc", some []⟩ :: rest)
          = .error "Float was not provided")
    ∧ (∀ (t : Int) (rest : List OscMessage) (addr : String) (args : List OscType),
        addr ∉ recognized_addresses →
        parse_muse_packet t (⟨addr, some args⟩ :: rest) = parse_muse_packet t rest)
    ∧ parse_muse_message_type ⟨"/muse/acc", some [.Int 0, .Float 1, .Float 2]⟩
        = .error "Muse value was not a float" := by
  have hu : ∀ (addr : String) (args : List OscType), addr ∉ recognized_addresses →
      parse_muse_message_type ⟨addr, some args⟩ = .ok none := by
    intro addr args h
    have hd := decode_unknown_address addr args h
    show (decode_by_address addr args >>= fun _ => decode_by_address addr args)
        = .ok none
    rw [hd]
    rfl
  refine ⟨hu, fun t rest => rfl, fun t rest addr args h => ?_, rfl⟩
  simp only [parse_muse_packet, hu addr args h]
  cases parse_muse_packet t rest <;> rfl

/-- C2 witness for the amended theorem. -/
theorem decode_failure_behaviour_witness :
    parse_muse_message_type ⟨"/unknown/address", some []⟩ = .ok none :=
  decode_failure_behaviour.1 "/unknown/address" [] (by decide)

/-- C1: `receive_packets` does not process every event of a batch.  The
source accumulates the band-power flag with Rust's short-circuiting `||`,
so once one band-power update has been handled every later event of the
batch is dropped: a Blink event following an Alpha event neither re-arms
the blink suppression counter nor reaches its persistence stream, while the
same Blink event alone is fully processed. -/
theorem receive_packets_drops_events_after_band_update :
    ((MuseModel.new 0).receive_packets
        [⟨1, .Alpha ![2, 2, 2, 2]⟩, ⟨2, .Blink true⟩]).1.blink_countdown = 0
    ∧ ((MuseModel.new 0).receive_packets
        [⟨1, .Alpha ![2, 2, 2, 2]⟩, ⟨2, .Blink true⟩]).1.other_log = []
    ∧ ((MuseModel.new 0).receive_packets [⟨2, .Blink true⟩]).1.blink_countdown = 5
    ∧ ((MuseModel.new 0).receive_packets [⟨2, .Blink true⟩]).1.other_log
        = [(2, OtherRecord.blinkRow 1)] := by
  refine ⟨rfl, rfl, rfl, rfl⟩

theorem count_down_iterate_blink (k : Nat) (m : MuseModel)
    (h : (k : Int) ≤ m.blink_countdown) :
    (MuseModel.count_down^[k] m).blink_countdown = m.blink_countdown - k := by
  induction k generalizing m with
  | zero => simp
  | succ k ih =>
    rw [Function.iterate_succ_apply]
    have hpos : 0 < m.blink_countdown := by omega
    have hc : (MuseModel.count_down m).blink_countdown = m.blink_countdown - 1 := by
      simp [MuseModel.count_down, hpos]
    rw [ih (MuseModel.count_down m) (by rw [hc]; omega), hc]
    omega

theorem count_down_iterate_jaw (k : Nat) (m : MuseModel)
    (h : (k : Int) ≤ m.jaw_clench_countdown) :
    (MuseModel.count_down^[k] m).jaw_clench_countdown = m.jaw_clench_countdown - k := by
  induction k generalizing m with
  | zero => simp
  | succ k ih =>
    rw [Function.iterate_succ_apply]
    have hpos : 0 < m.jaw_clench_countdown := by omega
    have hc : (MuseModel.count_down m).jaw_clench_countdown
        = m.jaw_clench_countdown - 1 := by
      simp [MuseModel.count_down, hpos]
    rw [ih (MuseModel.count_down m) (by rw [hc]; omega), hc]
    omega

theorem count_down_iterate_forehead (k : Nat) (m : MuseModel)
    (h : (k : Int) ≤ m.touching_forehead_countdown) :
    (MuseModel.count_down^[k] m).touching_forehead_countdown
      = m.touching_forehead_countdown - k := by
  induction k generalizing m with
  | zero => simp
  | succ k ih =>
    rw [Function.iterate_succ_apply]
    have hpos : 0 < m.touching_forehead_countdown := by omega
    have hc : (MuseModel.count_down m).touching_forehead_countdown
        = m.touching_forehead_countdown - 1 := by
      simp [MuseModel.count_down, hpos]
    rw [ih (MuseModel.count_down m) (by rw [hc]; omega), hc]
    omega

/-- C5: each of the three suppression counters is set to its reset constant
(5) by its triggering event; `count_down` decrements a positive counter by
exactly 1 and leaves a zero counter at 0; the artifact is reported active
iff the counter is positive, so after a single trigger k ≤ 5 ticks leave
the counter at 5 - k and the active flag is true exactly while k < 5. -/
theorem suppression_counters (m : MuseModel) (t : Int) (k : Nat) (hk : k ≤ 5) :
    ((m.handle_muse_message ⟨t, .Blink true⟩).1.blink_countdown = BLINK_COUNTDOWN
      ∧ (MuseModel.count_down^[k]
          (m.handle_muse_message ⟨t, .Blink true⟩).1).blink_countdown = 5 - (k : Int)
      ∧ (MuseModel.count_down^[k]
          (m.handle_muse_message ⟨t, .Blink true⟩).1).is_blink = decide (k < 5))
    ∧ ((m.handle_muse_message ⟨t, .JawClench true⟩).1.jaw_clench_countdown
          = CLENCH_COUNTDOWN
      ∧ (MuseModel.count_down^[k]
          (m.handle_muse_message ⟨t, .JawClench true⟩).1).jaw_clench_countdown
            = 5 - (k : Int)
      ∧ (MuseModel.count_down^[k]
          (m.handle_muse_message ⟨t, .JawClench true⟩).1).is_jaw_clench
            = decide (k < 5))
    ∧ ((m.handle_muse_message ⟨t, .TouchingForehead false⟩).1.touching_forehead_countdown
          = FOREHEAD_COUNTDOWN
      ∧ (MuseModel.count_down^[k]
          (m.handle_muse_message ⟨t, .TouchingForehead false⟩).1).touching_forehead_countdown
            = 5 - (k : Int)
      ∧ (MuseModel.count_down^[k]
          (m.handle_muse_message ⟨t, .TouchingForehead false⟩).1).is_touching_forehead
            = decide (k < 5))
    ∧ (∀ m' : MuseModel,
        (0 < m'.blink_countdown →
          (MuseModel.count_down m').blink_countdown = m'.blink_countdown - 1)
        ∧ (m'.blink_countdown = 0 → (MuseModel.count_down m').blink_countdown = 0)
        ∧ (0 < m'.jaw_clench_countdown →
          (MuseModel.count_down m').jaw_clench_countdown = m'.jaw_clench_countdown - 1)
        ∧ (m'.jaw_clench_countdown = 0 →
          (MuseModel.count_down m').jaw_clench_countdown = 0)
        ∧ (0 < m'.touching_forehead_countdown →
          (MuseModel.count_down m').touching_forehead_countdown
            = m'.touching_forehead_countdown - 1)
        ∧ (m'.touching_forehead_countdown = 0 →
          (MuseModel.count_down m').touching_forehead_countdown = 0)) := by
  have eb : (m.handle_muse_message ⟨t, .Blink true⟩).1.blink_countdown = 5 := rfl
  have ej : (m.handle_muse_message ⟨t, .JawClench true⟩).1.jaw_clench_countdown
      = 5 := rfl
  have ef : (m.handle_muse_message
      ⟨t, .TouchingForehead false⟩).1.touching_forehead_countdown = 5 := rfl
  have hb := count_down_iterate_blink k (m.handle_muse_message ⟨t, .Blink true⟩).1
    (by rw [eb]; omega)
  have hj := count_down_iterate_jaw k (m.handle_muse_message ⟨t, .JawClench true⟩).1
    (by rw [ej]; omega)
  have hf := count_down_iterate_forehead k
    (m.handle_muse_message ⟨t, .TouchingForehead false⟩).1
    (by rw [ef]; omega)
  rw [eb] at hb
  rw [ej] at hj
  rw [ef] at hf
  refine ⟨⟨rfl, hb, ?_⟩, ⟨rfl, hj, ?_⟩, ⟨rfl, hf, ?_⟩, fun m' => ?_⟩
  · simp only [MuseModel.is_blink, hb, decide_eq_decide]; omega
  · simp only [MuseModel.is_jaw_clench, hj, decide_eq_decide]; omega
  · simp only [MuseModel.is_touching_forehead, hf, decide_eq_decide]; omega
  · refine ⟨fun h => ?_, fun h => ?_, fun h => ?_, fun h => ?_, fun h => ?_, fun h => ?_⟩
      <;> simp [MuseModel.count_down, h]

/-- C5 witness: the blink counter armed from the fresh model reaches
exactly 0 after 5 ticks and the active flag is false there. -/
theorem suppression_counters_witness :
    (MuseModel.count_down^[5]
      ((MuseModel.new 0).handle_muse_message ⟨0, .Blink true⟩).1).is_blink
      = decide ((5 : Nat) < 5) :=
  (suppression_counters (MuseModel.new 0) 0 5 (by decide)).1.2.2

theorem set_snd (nv : NormalizedValue α) (v : FloatVal α) :
    (nv.set v).2 = acceptable_new_value nv.current v := by
  cases v with
  | finite x =>
    simp only [NormalizedValue.set]
    split <;> simp_all
  | nan => cases h : nv.current <;> simp [NormalizedValue.set,
      acceptable_new_value, h, FloatVal.is_finite]
  | inf => cases h : nv.current <;> simp [NormalizedValue.set,
      acceptable_new_value, h, FloatVal.is_finite]
  | ninf => cases h : nv.current <;> simp [NormalizedValue.set,
      acceptable_new_value, h, FloatVal.is_finite]

theorem set_fst_rejected (nv : NormalizedValue α) (v : FloatVal α)
    (h : (nv.set v).2 = false) : (nv.set v).1 = nv := by
  cases v with
  | finite x =>
    rw [set_snd] at h
    simp [NormalizedValue.set, h]
  | nan => rfl
  | inf => rfl
  | ninf => rfl

theorem set_fst_current (nv : NormalizedValue α) (x : α)
    (h : (nv.set (.finite x)).2 = true) :
    (nv.set (.finite x)).1.current = some x := by
  rw [set_snd] at h
  simp [NormalizedValue.set, h]

/-- C6: `set(v)` admits v iff v is finite and, when a current value already
exists, differs from it; on non-admission `set` returns false and leaves
the whole state (current, min, max, history, mean, deviation, and the
moving-average window) unchanged, so the second of two consecutive `set`
calls with the same value never admits. -/
theorem set_admission_gate (nv : NormalizedValue α) (v : FloatVal α) :
    ((nv.set v).2 = true ↔
      (v.is_finite = true ∧ ∀ c, nv.current = some c → v ≠ .finite c))
    ∧ ((nv.set v).2 = false → (nv.set v).1 = nv)
    ∧ ((nv.set v).1.set v).2 = false := by
  refine ⟨?_, set_fst_rejected nv v, ?_⟩
  · rw [set_snd]
    cases v <;> cases h : nv.current <;>
      simp [acceptable_new_value, h, FloatVal.is_finite]
  · rw [set_snd]
    cases v with
    | finite x =>
      by_cases h2 : (nv.set (.finite x)).2 = true
      · have hc := set_fst_current nv x h2
        simp [acceptable_new_value, hc, FloatVal.is_finite]
      · have hr := set_fst_rejected nv (.finite x) (by simpa using h2)
        rw [hr]
        rw [set_snd] at h2
        simpa using h2
    | nan =>
      cases h : (nv.set FloatVal.nan).1.current <;>
        simp [acceptable_new_value, h, FloatVal.is_finite]
    | inf =>
      cases h : (nv.set FloatVal.inf).1.current <;>
        simp [acceptable_new_value, h, FloatVal.is_finite]
    | ninf =>
      cases h : (nv.set FloatVal.ninf).1.current <;>
        simp [acceptable_new_value, h, FloatVal.is_finite]

/-- C6 witness: admitting 1 into a fresh engine and then calling set with 1
again does not admit the second call. -/
theorem set_admission_gate_witness :
    (((NormalizedValue.new : NormalizedValue ℚ).set (.finite 1)).1.set
        (.finite 1)).2 = false :=
  (set_admission_gate (NormalizedValue.new : NormalizedValue ℚ) (.finite 1)).2.2

theorem set_window (nv : NormalizedValue α) (x : α)
    (h : (nv.set (.finite x)).2 = true) :
    (nv.set (.finite x)).1.moving_average_history
      = window_step nv.moving_average_history x := by
  rw [set_snd] at h
  simp [NormalizedValue.set, h, window_step]

theorem admit_all_window (l : List α) (nv : NormalizedValue α)
    (h : admits_all nv l = true) :
    (admit_all nv l).moving_average_history
      = l.foldl window_step nv.moving_average_history := by
  induction l generalizing nv with
  | nil => rfl
  | cons x xs ih =>
    simp only [admits_all, Bool.and_eq_true] at h
    simp only [admit_all, List.foldl_cons]
    have step : List.foldl (fun s y => (s.set (.finite y)).1)
        ((nv.set (.finite x)).1) xs = admit_all (nv.set (.finite x)).1 xs := rfl
    rw [step, ih _ h.2, set_window nv x h.1]

theorem window_step_lastN (w : List α) (x : α) (h : w.length < WINDOW_LENGTH) :
    window_step w x = lastN (WINDOW_LENGTH - 1) (w ++ [x])
    ∧ (window_step w x).length < WINDOW_LENGTH := by
  unfold window_step lastN
  have hlen : (w ++ [x]).length = w.length + 1 := by simp
  by_cases h10 : WINDOW_LENGTH ≤ (w ++ [x]).length
  · rw [if_pos h10]
    have hcount : (w ++ [x]).length - (WINDOW_LENGTH - 1) = 1 := by
      simp only [WINDOW_LENGTH] at *
      omega
    rw [hcount]
    refine ⟨rfl, ?_⟩
    simp only [List.length_drop, WINDOW_LENGTH] at *
    omega
  · rw [if_neg h10]
    have hcount : (w ++ [x]).length - (WINDOW_LENGTH - 1) = 0 := by
      simp only [WINDOW_LENGTH] at *
      omega
    rw [hcount, List.drop_zero]
    refine ⟨rfl, ?_⟩
    simp only [WINDOW_LENGTH] at *
    omega

theorem lastN_append_lastN (n : Nat) (u xs : List α) :
    lastN n (lastN n u ++ xs) = lastN n (u ++ xs) := by
  unfold lastN
  have h1 : u.drop (u.length - n) ++ xs = (u ++ xs).drop (u.length - n) := by
    rw [List.drop_append_eq_append_drop,
      show u.length - n - u.length = 0 by omega, List.drop_zero]
  rw [h1, List.drop_drop]
  congr 1
  simp only [List.length_append, List.length_drop]
  omega

theorem foldl_window (l : List α) (w : List α) (h : w.length < WINDOW_LENGTH) :
    l.foldl window_step w = lastN (WINDOW_LENGTH - 1) (w ++ l)
    ∧ (l.foldl window_step w).length < WINDOW_LENGTH := by
  induction l generalizing w with
  | nil =>
    refine ⟨?_, by simpa using h⟩
    simp only [List.foldl_nil, List.append_nil]
    unfold lastN
    rw [show w.length - (WINDOW_LENGTH - 1) = 0 by
      simp only [WINDOW_LENGTH] at *; omega, List.drop_zero]
  | cons x xs ih =>
    have hw := window_step_lastN w x h
    rw [List.foldl_cons]
    obtain ⟨ih1, ih2⟩ := ih (window_step w x) hw.2
    refine ⟨?_, ih2⟩
    rw [ih1, hw.1, lastN_append_lastN, List.append_assoc]
    rfl

theorem lastN_length (n : Nat) (l : List α) :
    (lastN n l).length = Min.min n l.length := by
  simp only [lastN, List.length_drop]
  omega

/-- The moving-average window of a fully admitted sequence fed into a fresh
engine is the last WINDOW_LENGTH - 1 values of the sequence. -/
theorem window_of_admit_new (l : List α)
    (h : admits_all (NormalizedValue.new : NormalizedValue α) l = true) :
    (admit_all NormalizedValue.new l).moving_average_history
      = lastN (WINDOW_LENGTH - 1) l := by
  rw [admit_all_window l NormalizedValue.new h]
  have hfold := foldl_window l ([] : List α) (by simp [WINDOW_LENGTH])
  simpa using hfold.1

/-- C3 (counterexample): the ten pairwise distinct values 1..10 are all
admitted, yet the resulting moving average is 6, the mean of the last nine
admitted values, not the mean 11/2 of the last min(WINDOW_LENGTH, 10) = 10
admitted values as claimed. -/
theorem moving_average_window_counterexample :
    admits_all (NormalizedValue.new : NormalizedValue ℚ)
        [1, 2, 3, 4, 5, 6, 7, 8, 9, 10] = true
    ∧ (admit_all (NormalizedValue.new : NormalizedValue ℚ)
        [1, 2, 3, 4, 5, 6, 7, 8, 9, 10]).moving_average = some 6
    ∧ Meme.sum (lastN (Min.min WINDOW_LENGTH
          ([1, 2, 3, 4, 5, 6, 7, 8, 9, 10] : List ℚ).length)
          ([1, 2, 3, 4, 5, 6, 7, 8, 9, 10] : List ℚ))
        / ((Min.min WINDOW_LENGTH
            ([1, 2, 3, 4, 5, 6, 7, 8, 9, 10] : List ℚ).length : Nat) : ℚ)
        = 11 / 2
    ∧ (6 : ℚ) ≠ 11 / 2 := by
  have ha : admits_all (NormalizedValue.new : NormalizedValue ℚ)
      [1, 2, 3, 4, 5, 6, 7, 8, 9, 10] = true := by decide
  refine ⟨ha, ?_, ?_, by norm_num⟩
  · have hwin := window_of_admit_new [1, 2, 3, 4, 5, 6, 7, 8, 9, 10] ha
    rw [NormalizedValue.moving_average, hwin]
    norm_num [lastN, WINDOW_LENGTH, Meme.sum]
  · norm_num [lastN, WINDOW_LENGTH, Meme.sum]

/-- C3 (amended): moving_average() equals the arithmetic mean of the last
min(W - 1, count) admitted values in admission order, where the effective
window capacity is W - 1 = 9 (the source evicts whenever the window length
reaches WINDOW_LENGTH = 10 after a push); moving_average() is None exactly
when no value has been admitted. -/
theorem moving_average_last_nine (l : List α)
    (h : admits_all (NormalizedValue.new : NormalizedValue α) l = true) :
    (admit_all NormalizedValue.new l).moving_average =
      if l.length = 0 then none
      else some (Meme.sum (lastN (WINDOW_LENGTH - 1) l)
        / ((Min.min (WINDOW_LENGTH - 1) l.length : Nat) : α)) := by
  have hwin := window_of_admit_new l h
  rw [NormalizedValue.moving_average, hwin]
  by_cases hl : l.length = 0
  · have : lastN (WINDOW_LENGTH - 1) l = [] := by
      rcases List.length_eq_zero.mp hl with rfl
      rfl
    simp [hl, this]
  · have hpos : 0 < (lastN (WINDOW_LENGTH - 1) l).length := by
      rw [lastN_length]
      simp only [WINDOW_LENGTH]
      omega
    rw [if_pos hpos, if_neg hl, lastN_length]

/-- C3 witness for the amended theorem: admitting 1, 2, 3 yields moving
average 2. -/
theorem moving_average_last_nine_witness :
    (admit_all (NormalizedValue.new : NormalizedValue ℚ)
      [1, 2, 3]).moving_average = some 2 := by
  have h := moving_average_last_nine (α := ℚ) [1, 2, 3] (by decide)
  norm_num [lastN, WINDOW_LENGTH, Meme.sum] at h
  exact h

theorem set_recomputes (nv : NormalizedValue α) (v : FloatVal α)
    (h : (nv.set v).2 = true) :
    (nv.set v).1.mean = Meme.mean (nv.set v).1.history
    ∧ (nv.set v).1.variance
        = std_deviation_sq (nv.set v).1.history
            (Meme.mean (nv.set v).1.history) := by
  cases v with
  | finite x =>
    rw [set_snd] at h
    constructor <;> simp [NormalizedValue.set, h]
  | nan =>
    rw [set_snd] at h
    cases hc : nv.current <;>
      simp [acceptable_new_value, hc, FloatVal.is_finite] at h
  | inf =>
    rw [set_snd] at h
    cases hc : nv.current <;>
      simp [acceptable_new_value, hc, FloatVal.is_finite] at h
  | ninf =>
    rw [set_snd] at h
    cases hc : nv.current <;>
      simp [acceptable_new_value, hc, FloatVal.is_finite] at h

theorem admit_one_state :
    ((NormalizedValue.new : NormalizedValue ℚ).set (.finite 1)).1
      = ⟨some 1, some 1, some 1, some 1, some 0, [1], [1]⟩ := by
  simp only [NormalizedValue.set,
    show acceptable_new_value (NormalizedValue.new : NormalizedValue ℚ).current
      (.finite 1) = true from by decide, if_true]
  norm_num [NormalizedValue.new, Meme.mean, Meme.sum, std_deviation_sq,
    HISTORY_LENGTH, WINDOW_LENGTH]

theorem admit_two_state :
    (((NormalizedValue.new : NormalizedValue ℚ).set (.finite 1)).1.set
        (.finite 3)).1
      = ⟨some 3, some 1, some 3, some 2, some 1, [1, 3], [1, 3]⟩ := by
  rw [admit_one_state]
  simp only [NormalizedValue.set,
    show acceptable_new_value (some (1 : ℚ)) (.finite 3) = true from by decide,
    if_true]
  norm_num [Meme.mean, Meme.sum, std_deviation_sq, HISTORY_LENGTH, WINDOW_LENGTH]

theorem admit_three_state :
    ((((NormalizedValue.new : NormalizedValue ℚ).set (.finite 1)).1.set
        (.finite 3)).1.set (.finite 5)).1
      = ⟨some 5, some 1, some 5, some 3, some (8 / 3), [1, 3, 5], [1, 3, 5]⟩ := by
  rw [admit_two_state]
  simp only [NormalizedValue.set,
    show acceptable_new_value (some (3 : ℚ)) (.finite 5) = true from by decide,
    if_true]
  norm_num [Meme.mean, Meme.sum, std_deviation_sq, HISTORY_LENGTH, WINDOW_LENGTH]

theorem admit_four_state :
    (((((NormalizedValue.new : NormalizedValue ℚ).set (.finite 1)).1.set
        (.finite 3)).1.set (.finite 5)).1.set (.finite 7)).1
      = ⟨some 7, some 1, some 7, some 4, some 5, [1, 3, 5, 7], [1, 3, 5, 7]⟩ := by
  rw [admit_three_state]
  simp only [NormalizedValue.set,
    show acceptable_new_value (some (5 : ℚ)) (.finite 7) = true from by decide,
    if_true]
  norm_num [Meme.mean, Meme.sum, std_deviation_sq, HISTORY_LENGTH, WINDOW_LENGTH]

/-- C7: on every admission, mean and deviation are recomputed from the
current bounded history, the deviation being the population standard
deviation (the square root of the squared differences averaged over count,
not count - 1); concretely, admitting 1 yields deviation 0, then admitting
3 yields 1, then admitting 5 and 7 yields sqrt 5 ≈ 2.23606797749979. -/
theorem deviation_population :
    (∀ (nv : NormalizedValue ℚ) (v : FloatVal ℚ), (nv.set v).2 = true →
      (nv.set v).1.mean = Meme.mean (nv.set v).1.history
      ∧ (nv.set v).1.deviationQ
          = (std_deviation_sq (nv.set v).1.history
              (Meme.mean (nv.set v).1.history)).map fun q => Real.sqrt (q : ℝ))
    ∧ ((NormalizedValue.new : NormalizedValue ℚ).set (.finite 1)).1.deviationQ
        = some 0
    ∧ (((NormalizedValue.new : NormalizedValue ℚ).set (.finite 1)).1.set
        (.finite 3)).1.deviationQ = some 1
    ∧ (((((NormalizedValue.new : NormalizedValue ℚ).set (.finite 1)).1.set
        (.finite 3)).1.set (.finite 5)).1.set (.finite 7)).1.deviationQ
        = some (Real.sqrt 5)
    ∧ |Real.sqrt 5 - 2.23606797749979| < 1 / 10 ^ 10 := by
  refine ⟨fun nv v h => ?_, ?_, ?_, ?_, ?_⟩
  · obtain ⟨h1, h2⟩ := set_recomputes nv v h
    exact ⟨h1, by rw [NormalizedValue.deviationQ, h2]⟩
  · rw [NormalizedValue.deviationQ, admit_one_state]
    simp
  · rw [NormalizedValue.deviationQ, admit_two_state]
    simp
  · rw [NormalizedValue.deviationQ, admit_four_state]
    norm_num
  · have hupper : Real.sqrt 5 < 2.23606797749979 := by
      rw [show (2.23606797749979 : ℝ) = Real.sqrt (2.23606797749979 ^ 2) from
        (Real.sqrt_sq (by norm_num)).symm]
      exact Real.sqrt_lt_sqrt (by norm_num) (by norm_num)
    have hlower : (2.236067977499 : ℝ) < Real.sqrt 5 := by
      rw [show (2.236067977499 : ℝ) = Real.sqrt (2.236067977499 ^ 2) from
        (Real.sqrt_sq (by norm_num)).symm]
      exact Real.sqrt_lt_sqrt (by norm_num) (by norm_num)
    rw [abs_lt]
    constructor <;> nlinarith

/-- C7 witness for the general recomputation clause. -/
theorem deviation_population_witness :
    ((NormalizedValue.new : NormalizedValue ℚ).set (.finite 2)).1.mean
      = Meme.mean ((NormalizedValue.new : NormalizedValue ℚ).set
          (.finite 2)).1.history :=
  (deviation_population.1 NormalizedValue.new (.finite 2) (by decide)).1

end Meme
